import Mathlib

/-!
Shallow embedding of the neuropack brainwave-authentication engine
(`neuropack/__init__.py`, `neuropack/container.py`,
`neuropack/benchmarking/metrics.py`) together with proofs about it.

Floats are modelled as rationals (ℚ); Python lists / numpy arrays as
Lean lists; `None` as `Option.none`; raised exceptions as `Option.none`
results.  Python timestamps (`time()`) are passed in explicitly as a
`now : ℚ` argument.
-/

namespace Neuropack

/-! ## Evaluation metrics (`benchmarking/metrics.py`) -/

/-- `TPR(p_sims, t) = (p_sims >= t).sum() / len(p_sims)`. -/
def TPR (p_sims : List ℚ) (t : ℚ) : ℚ :=
  ((p_sims.countP (fun x => decide (t ≤ x))) : ℚ) / (p_sims.length : ℚ)

/-- `FPR(n_sims, t) = (n_sims >= t).sum() / len(n_sims)`. -/
def FPR (n_sims : List ℚ) (t : ℚ) : ℚ :=
  ((n_sims.countP (fun x => decide (t ≤ x))) : ℚ) / (n_sims.length : ℚ)

/-- `FNR(p_sims, t) = (p_sims < t).sum() / len(p_sims)`. -/
def FNR (p_sims : List ℚ) (t : ℚ) : ℚ :=
  ((p_sims.countP (fun x => decide (x < t))) : ℚ) / (p_sims.length : ℚ)

/-- `TNR(n_sims, t) = (n_sims < t).sum() / len(n_sims)`. -/
def TNR (n_sims : List ℚ) (t : ℚ) : ℚ :=
  ((n_sims.countP (fun x => decide (x < t))) : ℚ) / (n_sims.length : ℚ)

/-! ## Containers (`container.py`) -/

/-- A feature template: an ordered float vector (`NDArray` in the source). -/
abbrev Template := List ℚ

/-- `EventContainer`: a fixed window of multi-channel signal cut around one
stimulus event (`container.py`, class `EventContainer`). -/
structure EventContainer where
  channel_names : List String
  sample_rate : ℕ
  signals : List (List ℚ)
  timestamps : List ℚ
deriving DecidableEq

namespace EventContainer

/-- `AbstractContainer.__getitem__(ch)`: the signal stored at the index of
`ch` inside `channel_names`.  (Out-of-range access, which raises in Python,
is given the junk value `[]`.) -/
def getCh (e : EventContainer) (ch : String) : List ℚ :=
  e.signals.getD (e.channel_names.indexOf ch) []

/-- `AbstractContainer.__len__`: length of the first channel signal, `0`
when there are no channels. -/
def clen (e : EventContainer) : ℕ :=
  (e.signals.headD []).length

/-- `EventContainer.__add__`: channel-wise elementwise sum, iterating the
left operand's channel names (source line
`new_signals = [self[c] + other[c] for c in self.channel_names]`). -/
def add (a b : EventContainer) : EventContainer :=
  { channel_names := a.channel_names
    sample_rate := a.sample_rate
    signals := a.channel_names.map (fun c => List.zipWith (· + ·) (a.getCh c) (b.getCh c))
    timestamps := a.timestamps }

/-- `EventContainer.__truediv__`: divide every sample of every channel by a
scalar (`new_signals = [self[c] / scalar for c in self.channel_names]`). -/
def divScalar (a : EventContainer) (s : ℚ) : EventContainer :=
  { channel_names := a.channel_names
    sample_rate := a.sample_rate
    signals := a.channel_names.map (fun c => (a.getCh c).map (· / s))
    timestamps := a.timestamps }

/-- The loop body of `EventContainer.contains_blink`: iterate the container's
own `channel_names` (the source loops over `self.channel_names`, not over the
selection argument) and return true at the first channel whose peak absolute
amplitude exceeds 100.  `np.abs(sig).max()` raises on an empty array, which
is modelled as `none`. -/
def containsBlinkLoop (e : EventContainer) : List String → Option Bool
  | [] => some false
  | ch :: rest =>
    let s := e.getCh ch
    if s = [] then none
    else if s.any (fun x => decide (100 < |x|)) then some true
    else containsBlinkLoop e rest

/-- `EventContainer.contains_blink(*channel_names)`: the selection argument
is only used in the (dead) defaulting assignment; the scan itself always
iterates `self.channel_names`. -/
def contains_blink (e : EventContainer) (channel_names : List String) : Option Bool :=
  let _selected := if channel_names = [] then e.channel_names else channel_names
  containsBlinkLoop e e.channel_names

end EventContainer

/-- Modelled from the spec: `utils.osum` (module `neuropack/utils`, not under
`src/`) — the ordered elementwise sum of a list of containers, used by
template averaging ("average all epochs elementwise", §4.3); realised as a
fold of the source's `EventContainer.__add__`.  The empty sum, unreachable
in the engine paths proved here, is given a junk empty container. -/
def osum : List EventContainer → EventContainer
  | [] => ⟨[], 0, [], []⟩
  | e :: es => es.foldl EventContainer.add e

/-- `EEGContainer`: the streaming acquisition container
(`container.py`, class `EEGContainer`). -/
structure EEGContainer where
  channel_names : List String
  sample_rate : ℕ
  signals : List (List ℚ)
  timestamps : List ℚ
  events : List ℚ
deriving DecidableEq

namespace EEGContainer

/-- Helper for `np.argmin(np.abs(timestamp_arr - timestamp))`: returns the
first index attaining the minimum absolute difference, paired with that
minimum value.  (`[]`, on which numpy raises, gets the junk result `(0, 0)`.) -/
def argminAbsAux (t : ℚ) : List ℚ → ℕ × ℚ
  | [] => (0, 0)
  | [x] => (0, |x - t|)
  | x :: y :: rest =>
    let r := argminAbsAux t (y :: rest)
    if |x - t| ≤ r.2 then (0, |x - t|) else (r.1 + 1, r.2)

/-- `EEGContainer.__find_closest_timestamp`: index of the stored timestamp
closest to the given one (first index on ties, like `np.argmin`). -/
def find_closest_timestamp (c : EEGContainer) (timestamp : ℚ) : ℕ :=
  (argminAbsAux timestamp c.timestamps).1

/-- `EEGContainer.add_event(event_time, before, after)`: locate the nearest
sample, register its timestamp in `events` (idempotently), clamp the window
`[event - before_samples, event + after_samples)` to the container bounds and
return the updated container together with the cut `EventContainer`, whose
timestamps are re-based so the located sample is at 0.
Nat subtraction `event - before_samples` is Python's
`max(event - before_samples, 0)`. -/
def add_event (c : EEGContainer) (event_time : ℚ) (before after : ℕ) :
    EEGContainer × EventContainer :=
  let event := c.find_closest_timestamp event_time
  let et := c.timestamps.getD event 0
  let events' := if c.events.contains et then c.events else c.events ++ [et]
  let start := event - before * c.sample_rate / 1000
  let stop := min (event + (after * c.sample_rate / 1000 + 1)) c.timestamps.length
  let new_timestamps := ((c.timestamps.drop start).take (stop - start)).map (fun x => x - et)
  let new_signals := c.signals.map (fun s => (s.drop start).take (stop - start))
  ({ c with events := events' },
   ⟨c.channel_names, c.sample_rate, new_signals, new_timestamps⟩)

end EEGContainer

/-- The tail-trimming loop of `KeyWave.__perform_task_rec`
(`while len(events[0]) != len(events[-1]): events = events[:-1]`): drop the
last epoch while its length differs from the first epoch's length.  Indexing
`events[0]` on an empty list raises in Python, modelled as `none`. -/
def trimEvents : List EventContainer → Option (List EventContainer)
  | [] => none
  | e :: es =>
    if ((e :: es).getLast (List.cons_ne_nil e es)).clen = e.clen then some (e :: es)
    else trimEvents (e :: es).dropLast
termination_by l => l.length
decreasing_by simp [List.length_dropLast]

/-- The epoch-producing tail of `KeyWave.__perform_task_rec`: one
`add_event` per recorded stimulus timestamp (threading the container, whose
`events` list grows), then the tail-trimming loop. -/
def perform_task_rec_events (c : EEGContainer) (stimuli : List ℚ)
    (before after : ℕ) : Option (List EventContainer) :=
  let step := fun (acc : EEGContainer × List EventContainer) (ts : ℚ) =>
    let r := acc.1.add_event ts before after
    (r.1, acc.2 ++ [r.2])
  trimEvents (stimuli.foldl step (c, [])).2

/-! ## Template database (`__init__.py`, class `TemplateDatabase`)

The Python `dict` (which preserves insertion order and has unique keys) is
modelled as an association list; the unique-key invariant appears as a
`Nodup` hypothesis where it matters. -/

/-- JSON values as produced by `json.dumps` / consumed by `json.loads` for
the database persistence format (only the shapes that format uses). -/
inductive Json where
  | num : ℚ → Json
  | arr : List Json → Json
  | obj : List (String × Json) → Json

structure TemplateDatabase where
  internal_data : List (String × List Template)
deriving DecidableEq

/-- Fail-fast traversal: parse every element or fail the whole load (the
`assert`s and `np.array` conversions in `construct_from_json` raise on the
first malformed piece, so nothing partial is ever produced). -/
def optTraverse {α β : Type} (f : α → Option β) : List α → Option (List β)
  | [] => some []
  | x :: xs =>
    match f x, optTraverse f xs with
    | some y, some ys => some (y :: ys)
    | _, _ => none

namespace TemplateDatabase

/-- `TemplateDatabase.get_templates(id)`: found-flag plus the stored list. -/
def get_templates (db : TemplateDatabase) (id : String) :
    Bool × Option (List Template) :=
  match db.internal_data.lookup id with
  | none => (false, none)
  | some ts => (true, some ts)

/-- `TemplateDatabase.add_template(id, template)`: append to the identity's
list, creating the entry (at the end, as dict insertion does) if absent. -/
def add_template (db : TemplateDatabase) (id : String) (t : Template) :
    TemplateDatabase :=
  if (db.internal_data.map Prod.fst).contains id then
    ⟨db.internal_data.map (fun p => if p.1 = id then (p.1, p.2 ++ [t]) else p)⟩
  else
    ⟨db.internal_data ++ [(id, [t])]⟩

/-- `TemplateDatabase.get_all_idents()`. -/
def get_all_idents (db : TemplateDatabase) : List String :=
  db.internal_data.map Prod.fst

/-- `TemplateDatabase.remove_identity(id)`: delete the entry if present. -/
def remove_identity (db : TemplateDatabase) (id : String) : TemplateDatabase :=
  ⟨db.internal_data.filter (fun p => p.1 ≠ id)⟩

/-- `TemplateDatabase.to_json()`: the JSON object mapping each identity to
its list of templates (each template a JSON array of numbers), in insertion
order, as built by `{k: [a.tolist() for a in v] ...}` and `json.dumps`. -/
def to_json (db : TemplateDatabase) : Json :=
  .obj (db.internal_data.map (fun p =>
    (p.1, .arr (p.2.map (fun t => .arr (t.map .num))))))

/-- One template from its JSON form (`np.array(t)`); non-numeric entries
make the load fail. -/
def parseTemplate : Json → Option Template
  | .arr xs => optTraverse (fun j => match j with | .num q => some q | _ => none) xs
  | _ => none

/-- The per-identity template list from its JSON form; the source's
`assert isinstance(v, List)` makes any non-array fail the load. -/
def parseTemplates : Json → Option (List Template)
  | .arr ts => optTraverse parseTemplate ts
  | _ => none

/-- Helper: the inner loop `for t in v: instance.add_template(k, np.array(t))`. -/
def addTemplates (db : TemplateDatabase) (id : String) (ts : List Template) :
    TemplateDatabase :=
  ts.foldl (fun d t => d.add_template id t) db

/-- `TemplateDatabase.construct_from_json(data)`: parse the JSON object and
replay every template through `add_template`; any malformed piece fails the
whole load (`none`), never a partial database. -/
def construct_from_json (j : Json) : Option TemplateDatabase :=
  match j with
  | .obj entries =>
    (optTraverse (fun p => (parseTemplates p.2).map (fun ts => (p.1, ts))) entries).map
      (fun es => es.foldl (fun d pk => addTemplates d pk.1 pk.2) ⟨[]⟩)
  | _ => none

/-- `TemplateDatabase.__eq__`: same number of identities, every identity of
the left present in the right, with template lists of equal length and
elementwise `np.array_equal` templates — i.e. equal lists. -/
def eqb (a b : TemplateDatabase) : Bool :=
  decide (a.internal_data.length = b.internal_data.length) &&
  a.internal_data.all (fun p =>
    match b.internal_data.lookup p.1 with
    | none => false
    | some v2 => decide (p.2 = v2))

end TemplateDatabase

/-! ## Authentication engine (`__init__.py`, class `KeyWave`)

The pluggable collaborators (spec §6) enter as follows: the device is a
record of the three observations the engine makes of it; the preprocessing
pipeline, feature extractor and similarity metric are function fields; the
acquisition loop `__perform_task_rec`, whose outcome depends on real-time
polling, is abstracted by an `acq : Option (List EventContainer)` argument —
`some events` for a normal return, `none` for a raised exception — and every
result records in `acquisition_ran` whether that procedure was entered (it
unconditionally invokes `device.start_stream()` and `task.start()` first
thing, so `acquisition_ran = false` means neither was called). -/

/-- The observations `KeyWave` makes of its `DeviceBase`. -/
structure Device where
  is_connected : Bool
  is_worn : Bool
  removal_time_stamp : ℚ
deriving DecidableEq

/-- `TemplateMode` enum. -/
inductive TemplateMode where
  | AverageTemplate
  | SingleTemplates
  | AverageAndSingleTemplates
deriving DecidableEq

/-- `SimilarityMode` enum. -/
inductive SimilarityMode where
  | BestSimilarity
  | AverageSimilarity
deriving DecidableEq

/-- The `KeyWave` engine instance: collaborators, configured defaults and
the continuous-authentication session state (`last_auth`, `last_id`). -/
structure KeyWave where
  device : Device
  preprocessing_pipeline : List EventContainer → List EventContainer
  feature_extraction : EventContainer → Template
  database : TemplateDatabase
  similarity_metric : Template → Template → ℚ
  default_threshold : ℚ
  template_mode : TemplateMode
  similarity_mode : SimilarityMode
  last_auth : ℚ
  last_id : Option String

/-- The parameter defaulting `if not threshold: threshold = self.default_threshold`:
Python falsiness treats both `None` and `0.0` as absent. -/
def resolveThreshold : Option ℚ → ℚ → ℚ
  | none, d => d
  | some t, d => if t = 0 then d else t

namespace KeyWave

/-- `KeyWave.__create_templates(events, mode)`: an averaged-epoch template
and/or one template per epoch, average first. -/
def create_templates (kw : KeyWave) (events : List EventContainer)
    (mode : TemplateMode) : List Template :=
  (if mode = .AverageAndSingleTemplates ∨ mode = .AverageTemplate then
    [kw.feature_extraction ((osum events).divScalar (events.length : ℚ))]
  else []) ++
  (if mode = .SingleTemplates ∨ mode = .AverageAndSingleTemplates then
    events.map kw.feature_extraction
  else [])

/-- Stable insertion (descending by similarity) modelling one step of
Python's stable `list.sort(key=lambda x: x[1], reverse=True)`. -/
def insertDescBySim (p : String × ℚ) : List (String × ℚ) → List (String × ℚ)
  | [] => [p]
  | q :: rest => if p.2 < q.2 then q :: insertDescBySim p rest else p :: q :: rest

/-- Stable descending-by-similarity sort (the result of any stable sort by
one key is unique, so this models Python's timsort faithfully). -/
def sortDescBySim (l : List (String × ℚ)) : List (String × ℚ) :=
  l.foldr insertDescBySim []

/-- `KeyWave.__calculate_similarity(templates, similarity_mode, id)`:
per candidate identity, the full cross product of stored against fresh
templates through the similarity metric, reduced by mean or max, sorted
descending by similarity.  Python falsiness: `if not id` treats `None` and
the empty string alike, and identities whose stored list is empty are
skipped (`if not stored_templates[1]: continue`). -/
def calculate_similarity (kw : KeyWave) (templates : List Template)
    (similarity_mode : SimilarityMode) (id : Option String) :
    List (String × ℚ) :=
  let ids := match id with
    | none => kw.database.get_all_idents
    | some s => if s = ("" : String) then kw.database.get_all_idents else [s]
  let global_sims := ids.foldl (fun acc i =>
    match kw.database.get_templates i with
    | (false, _) => acc
    | (true, none) => acc
    | (true, some stored) =>
      if stored = [] then acc
      else
        let sims := stored.flatMap (fun st => templates.map (fun t => kw.similarity_metric st t))
        let sim := match similarity_mode with
          | .AverageSimilarity => sims.foldl (· + ·) 0 / (sims.length : ℚ)
          | .BestSimilarity => sims.foldl max (sims.headD 0)
        acc ++ [(i, sim)]) []
  sortDescBySim global_sims

/-- Result of one `authenticate` call: returned boolean, engine state after
the call (including the device, whose `removal_time_stamp` the call may
update), and whether `__perform_task_rec` was entered. -/
structure AuthResult where
  ok : Bool
  engine : KeyWave
  acquisition_ran : Bool

/-- The acquisition-and-decision phase of `KeyWave.authenticate` (everything
from `self.__perform_task_rec(timeout_s)` on), with threshold and modes
already resolved.  A raised acquisition failure resets `last_auth = 0`;
exactly one similarity is required; the `np.isnan` failsafe is identically
false over ℚ, which has no NaN; success sets `last_auth = now`,
`last_id = id`. -/
def authAcquire (kw : KeyWave) (id : String) (threshold : ℚ)
    (template_mode : TemplateMode) (similarity_mode : SimilarityMode)
    (acq : Option (List EventContainer)) (now : ℚ) : AuthResult :=
  match acq with
  | none => ⟨false, { kw with last_auth := 0 }, true⟩
  | some events =>
    let events := kw.preprocessing_pipeline events
    let templates := kw.create_templates events template_mode
    let sims := kw.calculate_similarity templates similarity_mode (some id)
    if sims.length ≠ 1 then ⟨false, kw, true⟩
    else if (sims.headD (("" : String), 0)).2 < threshold then ⟨false, kw, true⟩
    else ⟨true, { kw with last_auth := now, last_id := some id }, true⟩

/-- `KeyWave.authenticate(id, continuous_auth, timeout_s, threshold,
template_mode, similarity_mode)`.  `now` stands for `time()` (used both for
the worn-check failure's `removal_time_stamp` update and the success's
`last_auth`). -/
def authenticate (kw : KeyWave) (id : String) (continuous_auth : Bool)
    (threshold : Option ℚ) (template_mode : Option TemplateMode)
    (similarity_mode : Option SimilarityMode)
    (acq : Option (List EventContainer)) (now : ℚ) : AuthResult :=
  if kw.device.is_connected = false then ⟨false, kw, false⟩
  else if (kw.database.get_all_idents).contains id = false then ⟨false, kw, false⟩
  else
    let t := resolveThreshold threshold kw.default_threshold
    let tm := template_mode.getD kw.template_mode
    let sm := similarity_mode.getD kw.similarity_mode
    if continuous_auth = true ∧ kw.device.removal_time_stamp < kw.last_auth then
      if kw.device.is_worn = false then
        ⟨false, { kw with device := { kw.device with removal_time_stamp := now } }, false⟩
      else if some id = kw.last_id then ⟨true, kw, false⟩
      else kw.authAcquire id t tm sm acq now
    else kw.authAcquire id t tm sm acq now

/-- Result of one `identification` call. -/
structure IdentResult where
  ok : Bool
  ident : Option String
  engine : KeyWave
  acquisition_ran : Bool

/-- `KeyWave.identification(timeout_s, threshold, template_mode,
similarity_mode)`: compares against every enrolled identity and takes the
top of the similarity-sorted list.  Note the source returns the *empty
string* (`False, ""`), not `None`, on the no-similarities and
below-threshold paths, and never touches `last_auth`/`last_id`. -/
def identification (kw : KeyWave) (threshold : Option ℚ)
    (template_mode : Option TemplateMode)
    (similarity_mode : Option SimilarityMode)
    (acq : Option (List EventContainer)) : IdentResult :=
  if kw.device.is_connected = false then ⟨false, none, kw, false⟩
  else
    let t := resolveThreshold threshold kw.default_threshold
    let tm := template_mode.getD kw.template_mode
    let sm := similarity_mode.getD kw.similarity_mode
    match acq with
    | none => ⟨false, none, kw, true⟩
    | some events =>
      let events := kw.preprocessing_pipeline events
      let templates := kw.create_templates events tm
      let sims := kw.calculate_similarity templates sm none
      if sims.length = 0 then ⟨false, some (("" : String)), kw, true⟩
      else if (sims.headD (("" : String), 0)).2 < t then ⟨false, some (("" : String)), kw, true⟩
      else ⟨true, some (sims.headD (("" : String), 0)).1, kw, true⟩

end KeyWave

/-! ## Concrete instances used by witnesses and counterexamples -/

/-- Junk default `EventContainer` (used only as the default of `headD` and
`getLastD` on lists proved non-empty). -/
def dfltEC : EventContainer := ⟨[], 0, [], []⟩

/-- A one-sample epoch on one channel. -/
def epDemo : EventContainer := ⟨[(("ch") : String)], 1000, [[1]], [0]⟩

/-- A connected, worn device that has never been removed. -/
def demoDevice : Device := ⟨true, true, 0⟩

/-- A database holding one template for the identity `alice`. -/
def demoDb : TemplateDatabase := ⟨[((("alice") : String), [[(1 : ℚ)]])]⟩

/-- An engine that has just successfully authenticated `alice`
(`last_auth = 1 > removal_time_stamp = 0`). -/
def demoEngine : KeyWave :=
  { device := demoDevice
    preprocessing_pipeline := fun evs => evs
    feature_extraction := fun _ => [(1 : ℚ)]
    database := demoDb
    similarity_metric := fun _ _ => 1
    default_threshold := 1
    template_mode := .SingleTemplates
    similarity_mode := .BestSimilarity
    last_auth := 1
    last_id := some (("alice") : String) }

/-- `demoEngine` whose device reports it is no longer worn. -/
def demoEngineOff : KeyWave :=
  { demoEngine with device := { demoDevice with is_worn := false } }

/-- An engine whose similarity metric always scores 0 and whose default
threshold is 1: every fresh comparison lands strictly below the default
threshold. -/
def kwZero : KeyWave :=
  { device := demoDevice
    preprocessing_pipeline := fun evs => evs
    feature_extraction := fun _ => [(1 : ℚ)]
    database := demoDb
    similarity_metric := fun _ _ => 0
    default_threshold := 1
    template_mode := .SingleTemplates
    similarity_mode := .BestSimilarity
    last_auth := 0
    last_id := none }

/-- A 4-sample, single-channel recording at 1000 Hz with (non-uniform,
integer-valued) timestamps 0,1,2,3. -/
def c3Container : EEGContainer :=
  ⟨[(("ch") : String)], 1000, [[0, 0, 0, 0]], [0, 1, 2, 3], []⟩

/-- A 2-sample, single-channel recording at 1 Hz: timestamps `[0, 1]`
(uniform, 1/1 s apart), one channel with samples `[5, 6]`. -/
def c2demo : EEGContainer := ⟨[(("ch") : String)], 1, [[5, 6]], [0, 1], []⟩

/-! ## Theorems -/

/-- On any list, the samples counted by `>= t` and by `< t` partition it. -/
theorem countP_ge_add_countP_lt (l : List ℚ) (t : ℚ) :
    l.countP (fun x => decide (t ≤ x)) + l.countP (fun x => decide (x < t)) =
      l.length := by
  induction l with
  | nil => rfl
  | cons a l ih =>
    by_cases h : t ≤ a
    · have h2 : ¬(a < t) := not_lt.mpr h
      simp [List.countP_cons, h, h2]
      omega
    · have h2 : a < t := lt_of_not_ge h
      simp [List.countP_cons, h, h2]
      omega

/-- C9: for every threshold `t ∈ [0,1]` and non-empty similarity arrays
`p`, `n`, the rates computed by `metrics.py` satisfy
`TPR(p,t) + FNR(p,t) = 1` and `FPR(n,t) + TNR(n,t) = 1`. -/
theorem rates_sum_to_one (p n : List ℚ) (t : ℚ)
    (hp : p ≠ []) (hn : n ≠ []) (_ht0 : 0 ≤ t) (_ht1 : t ≤ 1) :
    TPR p t + FNR p t = 1 ∧ FPR n t + TNR n t = 1 := by
  have key : ∀ l : List ℚ, l ≠ [] →
      ((l.countP (fun x => decide (t ≤ x))) : ℚ) / (l.length : ℚ) +
        ((l.countP (fun x => decide (x < t))) : ℚ) / (l.length : ℚ) = 1 := by
    intro l hl
    have hlen : (l.length : ℚ) ≠ 0 := by
      exact_mod_cast Nat.pos_of_ne_zero
        (fun h => hl (List.length_eq_zero.mp h)) |>.ne'
    rw [div_add_div_same]
    rw [show ((l.countP (fun x => decide (t ≤ x))) : ℚ) +
          ((l.countP (fun x => decide (x < t))) : ℚ) = ((l.length : ℕ) : ℚ) by
      exact_mod_cast congrArg (Nat.cast (R := ℚ)) (countP_ge_add_countP_lt l t)]
    exact div_self hlen
  exact ⟨key p hp, key n hn⟩

/-- Witness for C9 at `p = [1, 0]`, `n = [0]`, `t = 1`. -/
theorem rates_sum_to_one_witness :
    ([(1 : ℚ), 0] ≠ ([] : List ℚ) ∧ [(0 : ℚ)] ≠ ([] : List ℚ) ∧
      (0 : ℚ) ≤ 1 ∧ (1 : ℚ) ≤ 1) ∧
    TPR [(1 : ℚ), 0] 1 + FNR [(1 : ℚ), 0] 1 = 1 ∧
    FPR [(0 : ℚ)] 1 + TNR [(0 : ℚ)] 1 = 1 :=
  ⟨⟨by decide, by decide, by decide, by decide⟩,
    rates_sum_to_one [(1 : ℚ), 0] [(0 : ℚ)] 1
      (by decide) (by decide) (by decide) (by decide)⟩

/-- C7: for an identity not present in the template database,
`authenticate` returns false before any acquisition is attempted: the
result is exactly `⟨false, kw, false⟩` — the engine (session state
`last_id`/`last_auth`, database, device) is returned unchanged and
`__perform_task_rec` (which is what invokes `device.start_stream()` and
`task.start()`) is never entered. -/
theorem authenticate_unknown_id (kw : KeyWave) (id : String)
    (continuous_auth : Bool) (threshold : Option ℚ) (tm : Option TemplateMode)
    (sm : Option SimilarityMode) (acq : Option (List EventContainer)) (now : ℚ)
    (h : (kw.database.get_all_idents).contains id = false) :
    kw.authenticate id continuous_auth threshold tm sm acq now =
      ⟨false, kw, false⟩ := by
  have hmem : id ∉ kw.database.get_all_idents := by simpa using h
  by_cases hc : kw.device.is_connected = false
  · simp [KeyWave.authenticate, hc]
  · simp [KeyWave.authenticate, hc, hmem]

/-- Witness for C7: `authenticate("ghost")` on the demo engine. -/
theorem authenticate_unknown_id_witness :
    ((demoEngine.database.get_all_idents).contains (("ghost") : String) = false) ∧
    demoEngine.authenticate (("ghost") : String) false none none none none 0 =
      ⟨false, demoEngine, false⟩ :=
  ⟨by decide,
    authenticate_unknown_id demoEngine (("ghost") : String) false none none none
      none 0 (by decide)⟩

/-- C1: with the device connected, the identity enrolled, and the session
state recording a successful prior authentication of `id`
(`last_auth > device.removal_time_stamp`, `last_id = id`), a
`continuous_auth` call either (worn) immediately returns true with the
engine unchanged, or (not worn) returns false with only
`removal_time_stamp` updated to now — in both cases without entering
`__perform_task_rec` (`acquisition_ran = false`, so `device.start_stream`
is not called). -/
theorem authenticate_continuous_fast_path (kw : KeyWave) (id : String)
    (threshold : Option ℚ) (tm : Option TemplateMode) (sm : Option SimilarityMode)
    (acq : Option (List EventContainer)) (now : ℚ)
    (hconn : kw.device.is_connected = true)
    (henr : (kw.database.get_all_idents).contains id = true)
    (hfresh : kw.device.removal_time_stamp < kw.last_auth)
    (hid : kw.last_id = some id) :
    (kw.device.is_worn = true →
      kw.authenticate id true threshold tm sm acq now = ⟨true, kw, false⟩) ∧
    (kw.device.is_worn = false →
      kw.authenticate id true threshold tm sm acq now =
        ⟨false, { kw with device := { kw.device with removal_time_stamp := now } },
          false⟩) := by
  have hmem : id ∈ kw.database.get_all_idents := by simpa using henr
  constructor <;> intro hw <;>
    simp [KeyWave.authenticate, hconn, hmem, hfresh, hw, hid]

/-- Witness for C1: the worn branch on `demoEngine`, the not-worn branch on
`demoEngineOff`. -/
theorem authenticate_continuous_fast_path_witness :
    demoEngine.authenticate (("alice") : String) true none none none none 2 =
      ⟨true, demoEngine, false⟩ ∧
    demoEngineOff.authenticate (("alice") : String) true none none none none 2 =
      ⟨false,
        { demoEngineOff with
            device := { demoEngineOff.device with removal_time_stamp := 2 } },
        false⟩ :=
  ⟨(authenticate_continuous_fast_path demoEngine (("alice") : String) none none
      none none 2 rfl (by decide) (by decide) rfl).1 rfl,
   (authenticate_continuous_fast_path demoEngineOff (("alice") : String) none none
      none none 2 rfl (by decide) (by decide) rfl).2 rfl⟩

/-- C5: when the acquisition procedure raises (`acq = none`),
`authenticate` returns false having set `last_auth = 0` (everything else
unchanged), while `identification` returns `(false, none)` with the engine
fully unchanged — the two failure paths differ exactly in that reset. -/
theorem acquisition_failure_reset_asymmetry (kw : KeyWave) (id : String)
    (threshold : Option ℚ) (tm : Option TemplateMode) (sm : Option SimilarityMode)
    (now : ℚ)
    (hconn : kw.device.is_connected = true)
    (henr : (kw.database.get_all_idents).contains id = true) :
    kw.authenticate id false threshold tm sm none now =
      ⟨false, { kw with last_auth := 0 }, true⟩ ∧
    kw.identification threshold tm sm none = ⟨false, none, kw, true⟩ := by
  have hmem : id ∈ kw.database.get_all_idents := by simpa using henr
  constructor
  · simp [KeyWave.authenticate, KeyWave.authAcquire, hconn, hmem]
  · simp [KeyWave.identification, hconn]

/-- Witness for C5 on the demo engine. -/
theorem acquisition_failure_reset_asymmetry_witness :
    demoEngine.authenticate (("alice") : String) false none none none none 7 =
      ⟨false, { demoEngine with last_auth := 0 }, true⟩ ∧
    demoEngine.identification none none none none =
      ⟨false, none, demoEngine, true⟩ :=
  acquisition_failure_reset_asymmetry demoEngine (("alice") : String) none none
    none 7 rfl (by decide)

/-- C4 (counterexample): a supplied threshold of `0.0` is NOT used for the
decision.  On `kwZero` the fresh similarity is `0`; with the supplied
threshold `0` the claim predicts acceptance (`0 ≥ 0`), but the code's
`if not threshold:` treats `0.0` as absent, substitutes the engine default
`1`, and rejects. -/
theorem supplied_zero_threshold_ignored :
    (kwZero.authenticate (("alice") : String) false (some 0)
        (some .SingleTemplates) (some .BestSimilarity) (some [epDemo]) 0).ok =
      false := by
  decide

/-- C4 (amended): a supplied *non-zero* threshold and supplied modes are
used exactly — `authenticate` hands precisely `(t, template_mode,
similarity_mode)` to its acquisition-and-decision phase — while a supplied
threshold of `0.0` behaves exactly as an omitted one (the engine default is
used); omitted arguments always resolve to the engine defaults. -/
theorem supplied_parameter_resolution (kw : KeyWave) (id : String) (t : ℚ)
    (tm : TemplateMode) (sm : SimilarityMode)
    (acq : Option (List EventContainer)) (now : ℚ)
    (hconn : kw.device.is_connected = true)
    (henr : (kw.database.get_all_idents).contains id = true)
    (ht : t ≠ 0) :
    kw.authenticate id false (some t) (some tm) (some sm) acq now =
      kw.authAcquire id t tm sm acq now ∧
    kw.authenticate id false (some 0) (some tm) (some sm) acq now =
      kw.authenticate id false none (some tm) (some sm) acq now := by
  have hmem : id ∈ kw.database.get_all_idents := by simpa using henr
  constructor
  · simp [KeyWave.authenticate, hconn, hmem, resolveThreshold, ht]
  · simp [KeyWave.authenticate, hconn, hmem, resolveThreshold]

/-- Witness for C4's amended claim at `t = 1` on the demo engine. -/
theorem supplied_parameter_resolution_witness :
    demoEngine.authenticate (("alice") : String) false (some 1)
        (some .SingleTemplates) (some .BestSimilarity) none 3 =
      demoEngine.authAcquire (("alice") : String) 1 .SingleTemplates
        .BestSimilarity none 3 ∧
    demoEngine.authenticate (("alice") : String) false (some 0)
        (some .SingleTemplates) (some .BestSimilarity) none 3 =
      demoEngine.authenticate (("alice") : String) false none
        (some .SingleTemplates) (some .BestSimilarity) none 3 :=
  supplied_parameter_resolution demoEngine (("alice") : String) 1
    .SingleTemplates .BestSimilarity none 3 rfl (by decide) one_ne_zero

/-- C6 (code evaluated at the failing input): `identification` on an engine
whose only candidate scores 0, strictly below the resolved threshold 1,
returns `ok = false` with the identity component the *empty string* `""`,
not `None` — contradicting both the claim and the function's own docstring
("Str is the id of the identified user, if successful, else None"). -/
theorem identification_rejection_empty_string :
    kwZero.identification none none (some .BestSimilarity) (some [epDemo]) =
      ⟨false, some (("") : String), kwZero, true⟩ := by
  rfl

/-- C3 (counterexample): epochs produced by the acquisition procedure from
stimuli `[0, 1, 3]` on a 4-sample container have lengths `[3, 4, 3]`; the
trimming loop compares only first and last, finds `3 = 3`, and returns the
list untouched — the middle epoch's length (4) differs from the first's (3),
so the returned list is NOT all equal-length. -/
theorem trim_keeps_unequal_middle :
    (perform_task_rec_events c3Container [0, 1, 3] 2 2).map
        (fun l => l.all (fun e => e.clen == (l.headD dfltEC).clen)) =
      some false := by
  norm_num [perform_task_rec_events, EEGContainer.add_event,
    EEGContainer.find_closest_timestamp, EEGContainer.argminAbsAux,
    trimEvents, EventContainer.clen, c3Container, dfltEC]

/-- C3 (amended): on every NON-empty epoch list the trimming loop
terminates without fault and returns a non-empty prefix of its input whose
last epoch has the same length as its first (epochs strictly between first
and last may still differ, see the counterexample); on an empty epoch list
the loop faults (`events[0]` raises `IndexError`). -/
theorem trimEvents_terminates_first_last (evs : List EventContainer)
    (hne : evs ≠ []) :
    (∃ r x, trimEvents evs = some r ∧ r ≠ [] ∧ r = evs.take r.length ∧
      r.getLast? = some x ∧ x.clen = (r.headD dfltEC).clen) ∧
    trimEvents ([] : List EventContainer) = none := by
  refine ⟨?_, by simp [trimEvents]⟩
  have main : ∀ n (l : List EventContainer), l.length ≤ n → l ≠ [] →
      ∃ r x, trimEvents l = some r ∧ r ≠ [] ∧ r = l.take r.length ∧
        r.getLast? = some x ∧ x.clen = (r.headD dfltEC).clen := by
    intro n
    induction n with
    | zero =>
      intro l hl hne2
      cases l with
      | nil => exact absurd rfl hne2
      | cons e es => simp at hl
    | succ n ih =>
      intro l hl hne2
      cases l with
      | nil => exact absurd rfl hne2
      | cons e es =>
        by_cases hc : ((e :: es).getLast (List.cons_ne_nil e es)).clen = e.clen
        · refine ⟨e :: es, (e :: es).getLast (List.cons_ne_nil e es), ?_,
            List.cons_ne_nil e es, (List.take_length _).symm,
            List.getLast?_eq_getLast _ _, by simpa using hc⟩
          simp only [trimEvents]
          rw [if_pos hc]
        · have hes : es ≠ [] := by
            intro h
            subst h
            simp [List.getLast_singleton] at hc
          have hlen : (e :: es).dropLast.length = es.length := by
            simp [List.length_dropLast]
          have hdl : (e :: es).dropLast ≠ [] := by
            intro h
            rw [h] at hlen
            exact hes (List.length_eq_zero.mp hlen.symm)
          have hle : (e :: es).dropLast.length ≤ n := by
            rw [hlen]
            have := hl
            simp only [List.length_cons] at this
            omega
          obtain ⟨r, x, h1, h2, h3, h4, h5⟩ := ih _ hle hdl
          have hr2 : r.length ≤ es.length := by
            have hh := congrArg List.length h3
            rw [List.length_take] at hh
            rw [hlen] at hh
            omega
          refine ⟨r, x, ?_, h2, ?_, h4, h5⟩
          · simp only [trimEvents]
            rw [if_neg hc]
            exact h1
          · conv_lhs => rw [h3]
            rw [List.dropLast_eq_take, List.take_take]
            congr 1
            simp only [List.length_cons]
            omega
  exact main evs.length evs le_rfl hne

/-- Witness for C3's amended claim on the singleton epoch list `[epDemo]`. -/
theorem trimEvents_terminates_first_last_witness :
    (∃ r x, trimEvents [epDemo] = some r ∧ r ≠ [] ∧ r = [epDemo].take r.length ∧
      r.getLast? = some x ∧ x.clen = (r.headD dfltEC).clen) ∧
    trimEvents ([] : List EventContainer) = none :=
  trimEvents_terminates_first_last [epDemo] (by decide)

/-- In a duplicate-free list, the index found for the `i`-th element is `i`. -/
theorem indexOf_getElem_nodup {α : Type} [BEq α] [LawfulBEq α] :
    ∀ (l : List α), l.Nodup → ∀ i (h : i < l.length),
      List.indexOf (l.get ⟨i, h⟩) l = i := by
  intro l
  induction l with
  | nil => intro _ i h; exact absurd h (by simp)
  | cons x xs ih =>
    intro hnd i h
    cases i with
    | zero => simp [List.indexOf_cons]
    | succ n =>
      have hn : n < xs.length := by simpa using h
      have hmem : xs.get ⟨n, hn⟩ ∈ xs := List.get_mem xs n hn
      have hne2 : x ≠ xs.get ⟨n, hn⟩ := fun hcontra =>
        (List.nodup_cons.mp hnd).1 (hcontra ▸ hmem)
      have hx : (x == xs.get ⟨n, hn⟩) = false := by simpa using hne2
      have hgetc : (x :: xs).get ⟨n + 1, h⟩ = xs.get ⟨n, hn⟩ := rfl
      rw [hgetc, List.indexOf_cons, hx]
      simpa using ih (List.Nodup.of_cons hnd) n hn

/-- The `contains_blink` scan evaluates, channel by channel, to "some
channel has a sample of absolute amplitude above 100", provided no channel
signal is empty. -/
theorem containsBlinkLoop_eq_any (e : EventContainer) :
    ∀ l : List String, (∀ ch ∈ l, e.getCh ch ≠ []) →
      e.containsBlinkLoop l =
        some (l.any (fun ch => (e.getCh ch).any (fun x => decide (100 < |x|)))) := by
  intro l
  induction l with
  | nil => intro _; rfl
  | cons ch rest ih =>
    intro hall
    have hne : e.getCh ch ≠ [] := hall ch (by simp)
    by_cases hb : (e.getCh ch).any (fun x => decide (100 < |x|)) = true
    · simp [EventContainer.containsBlinkLoop, hne, hb]
    · simp only [EventContainer.containsBlinkLoop, if_neg hne,
        Bool.not_eq_true] at hb ⊢
      rw [if_neg (by simp [hb]), ih (fun c hc => hall c (List.mem_cons_of_mem _ hc))]
      simp [hb]

/-- C10: on a well-formed `EventContainer` (channel names distinct and
matching the signal rows, every channel non-empty), `contains_blink`
ignores its channel-selection argument entirely — any selection gives the
result of the no-selection call — and returns true exactly when some
channel contains a sample of absolute amplitude strictly above 100. -/
theorem contains_blink_spec (e : EventContainer)
    (hlen : e.channel_names.length = e.signals.length)
    (hnd : e.channel_names.Nodup)
    (hne : ∀ s ∈ e.signals, s ≠ []) :
    (∀ sel : List String, e.contains_blink sel = e.contains_blink []) ∧
    (e.contains_blink [] = some true ↔
      ∃ s ∈ e.signals, ∃ x ∈ s, (100 : ℚ) < |x|) := by
  have hget : ∀ i (h : i < e.channel_names.length),
      e.getCh (e.channel_names.get ⟨i, h⟩) = e.signals.get ⟨i, hlen ▸ h⟩ := by
    intro i h
    unfold EventContainer.getCh
    rw [indexOf_getElem_nodup e.channel_names hnd i h]
    have hx : i < e.signals.length := hlen ▸ h
    simp [List.getD_eq_getElem?_getD, List.getElem?_eq_getElem hx]
  refine ⟨fun _ => rfl, ?_⟩
  have hallne : ∀ ch ∈ e.channel_names, e.getCh ch ≠ [] := by
    intro ch hch
    obtain ⟨⟨i, h⟩, rfl⟩ := List.mem_iff_get.mp hch
    rw [hget i h]
    exact hne _ (List.get_mem _ _ _)
  rw [show e.contains_blink [] = e.containsBlinkLoop e.channel_names from rfl,
    containsBlinkLoop_eq_any e e.channel_names hallne]
  constructor
  · intro hsome
    have hany := Option.some.inj hsome
    obtain ⟨ch, hch, hp⟩ := List.any_eq_true.mp hany
    obtain ⟨⟨i, h⟩, rfl⟩ := List.mem_iff_get.mp hch
    rw [hget i h] at hp
    obtain ⟨x, hx, hpx⟩ := List.any_eq_true.mp hp
    exact ⟨_, List.get_mem _ _ _, x, hx, of_decide_eq_true hpx⟩
  · rintro ⟨s, hs, x, hx, h100⟩
    obtain ⟨⟨i, hi⟩, rfl⟩ := List.mem_iff_get.mp hs
    have hni : i < e.channel_names.length := hlen.symm ▸ hi
    have hany : e.channel_names.any
        (fun ch => (e.getCh ch).any (fun x => decide (100 < |x|))) = true := by
      apply List.any_eq_true.mpr
      refine ⟨e.channel_names.get ⟨i, hni⟩, List.get_mem _ _ _, ?_⟩
      rw [hget i hni]
      exact List.any_eq_true.mpr ⟨x, hx, decide_eq_true h100⟩
    rw [hany]

/-- Witness for C10: a 2-channel container whose second channel holds an
amplitude of 101. -/
theorem contains_blink_spec_witness :
    ((⟨[(("a") : String), (("b") : String)], 4, [[1, 0], [101, 0]], [0, 1]⟩ :
        EventContainer).contains_blink [(("b") : String)] =
      (⟨[(("a") : String), (("b") : String)], 4, [[1, 0], [101, 0]], [0, 1]⟩ :
        EventContainer).contains_blink []) ∧
    ((⟨[(("a") : String), (("b") : String)], 4, [[1, 0], [101, 0]], [0, 1]⟩ :
        EventContainer).contains_blink [] = some true ↔
      ∃ s ∈ (⟨[(("a") : String), (("b") : String)], 4, [[1, 0], [101, 0]], [0, 1]⟩ :
        EventContainer).signals, ∃ x ∈ s, (100 : ℚ) < |x|) :=
  ⟨(contains_blink_spec _ (by decide) (by decide) (by decide)).1 [(("b") : String)],
   (contains_blink_spec _ (by decide) (by decide) (by decide)).2⟩

/-- The index returned by the argmin helper is in bounds. -/
theorem argminAux_fst_lt (t : ℚ) :
    ∀ ts : List ℚ, ts ≠ [] → (EEGContainer.argminAbsAux t ts).1 < ts.length := by
  intro ts
  induction ts with
  | nil => intro h; exact absurd rfl h
  | cons x xs ih =>
    intro _
    cases xs with
    | nil => simp [EEGContainer.argminAbsAux]
    | cons y rest =>
      by_cases hc : |x - t| ≤ (EEGContainer.argminAbsAux t (y :: rest)).2
      · simp [EEGContainer.argminAbsAux, hc]
      · have hlt := ih (List.cons_ne_nil y rest)
        simp only [List.length_cons] at hlt
        simp only [EEGContainer.argminAbsAux, hc, if_false, List.length_cons]
        omega

/-- The value carried by the argmin helper is the absolute difference at
the returned index. -/
theorem argminAux_snd (t : ℚ) :
    ∀ ts : List ℚ, ts ≠ [] →
      (EEGContainer.argminAbsAux t ts).2 =
        |ts.getD (EEGContainer.argminAbsAux t ts).1 0 - t| := by
  intro ts
  induction ts with
  | nil => intro h; exact absurd rfl h
  | cons x xs ih =>
    intro _
    cases xs with
    | nil => simp [EEGContainer.argminAbsAux]
    | cons y rest =>
      by_cases hc : |x - t| ≤ (EEGContainer.argminAbsAux t (y :: rest)).2
      · simp [EEGContainer.argminAbsAux, hc]
      · have hsnd := ih (List.cons_ne_nil y rest)
        simp only [EEGContainer.argminAbsAux, hc, if_false, List.getD_cons_succ]
        exact hsnd

/-- The value carried by the argmin helper is minimal over the list. -/
theorem argminAux_min (t : ℚ) :
    ∀ ts : List ℚ, ∀ i, i < ts.length →
      (EEGContainer.argminAbsAux t ts).2 ≤ |ts.getD i 0 - t| := by
  intro ts
  induction ts with
  | nil => intro i hi; simp at hi
  | cons x xs ih =>
    intro i hi
    cases xs with
    | nil =>
      cases i with
      | zero => simp [EEGContainer.argminAbsAux]
      | succ j => simp at hi
    | cons y rest =>
      by_cases hc : |x - t| ≤ (EEGContainer.argminAbsAux t (y :: rest)).2
      · cases i with
        | zero => simp [EEGContainer.argminAbsAux, hc]
        | succ j =>
          have hj : j < (y :: rest).length := by simpa using hi
          calc (EEGContainer.argminAbsAux t (x :: y :: rest)).2
              = |x - t| := by simp [EEGContainer.argminAbsAux, hc]
            _ ≤ (EEGContainer.argminAbsAux t (y :: rest)).2 := hc
            _ ≤ |(y :: rest).getD j 0 - t| := ih j hj
            _ = |(x :: y :: rest).getD (j + 1) 0 - t| := by
                rw [List.getD_cons_succ]
      · have hval : (EEGContainer.argminAbsAux t (x :: y :: rest)).2 =
            (EEGContainer.argminAbsAux t (y :: rest)).2 := by
          simp [EEGContainer.argminAbsAux, hc]
        cases i with
        | zero =>
          rw [hval]
          simp only [List.getD_cons_zero]
          exact le_of_lt (lt_of_not_ge hc)
        | succ j =>
          have hj : j < (y :: rest).length := by simpa using hi
          rw [hval, List.getD_cons_succ]
          exact ih j hj

/-- C2: on a container holding `n ≥ 1` samples taken uniformly at rate `R`
(timestamps `t0 + i/R`), `add_event` locates the index `e` of minimum
absolute difference to the event time, and the returned epoch's timestamp
array has value 0 at the located sample (position `e - start`) and length
`min (e + after_samples) n - (e - before_samples)` — the window
`[e - before_samples, e + after_samples)` (with `before_samples =
before*R/1000`, `after_samples = after*R/1000 + 1` as integer sample
counts, and Nat subtraction clamping at 0) intersected with the container
bounds `[0, n)`. -/
theorem add_event_epoch_spec (c : EEGContainer) (t0 : ℚ) (n R : ℕ)
    (event_time : ℚ) (before after : ℕ)
    (hn : 0 < n) (_hR : 0 < R) (hrate : c.sample_rate = R)
    (hts : c.timestamps =
      (List.range n).map (fun i : ℕ => t0 + (i : ℚ) / (R : ℚ))) :
    (c.find_closest_timestamp event_time < n ∧
      ∀ i, i < n →
        |c.timestamps.getD (c.find_closest_timestamp event_time) 0 - event_time| ≤
          |c.timestamps.getD i 0 - event_time|) ∧
    ((c.add_event event_time before after).2.timestamps.length =
      min (c.find_closest_timestamp event_time + (after * R / 1000 + 1)) n -
        (c.find_closest_timestamp event_time - before * R / 1000)) ∧
    ((c.find_closest_timestamp event_time -
        (c.find_closest_timestamp event_time - before * R / 1000)) <
      (c.add_event event_time before after).2.timestamps.length ∧
     (c.add_event event_time before after).2.timestamps.getD
        (c.find_closest_timestamp event_time -
          (c.find_closest_timestamp event_time - before * R / 1000)) 0 = 0) := by
  have hlen : c.timestamps.length = n := by
    rw [hts, List.length_map, List.length_range]
  have hne : c.timestamps ≠ [] := by
    intro h
    rw [h] at hlen
    simp at hlen
    omega
  have hefst : c.find_closest_timestamp event_time =
      (EEGContainer.argminAbsAux event_time c.timestamps).1 := rfl
  have helt : c.find_closest_timestamp event_time < n := by
    rw [hefst, ← hlen]
    exact argminAux_fst_lt event_time c.timestamps hne
  have hmin : ∀ i, i < n →
      |c.timestamps.getD (c.find_closest_timestamp event_time) 0 - event_time| ≤
        |c.timestamps.getD i 0 - event_time| := by
    intro i hi
    rw [hefst, ← argminAux_snd event_time c.timestamps hne]
    exact argminAux_min event_time c.timestamps i (by omega)
  have hepts : (c.add_event event_time before after).2.timestamps =
      ((c.timestamps.drop (c.find_closest_timestamp event_time -
          before * c.sample_rate / 1000)).take
        (min (c.find_closest_timestamp event_time +
            (after * c.sample_rate / 1000 + 1)) c.timestamps.length -
          (c.find_closest_timestamp event_time -
            before * c.sample_rate / 1000))).map
        (fun x => x - c.timestamps.getD (c.find_closest_timestamp event_time) 0) :=
    rfl
  rw [hrate] at hepts
  have hL : (c.add_event event_time before after).2.timestamps.length =
      min (c.find_closest_timestamp event_time + (after * R / 1000 + 1)) n -
        (c.find_closest_timestamp event_time - before * R / 1000) := by
    rw [hepts, List.length_map, List.length_take, List.length_drop, hlen]
    omega
  refine ⟨⟨helt, hmin⟩, hL, ?_, ?_⟩
  · rw [hL]
    omega
  · have hidx : (c.find_closest_timestamp event_time - before * R / 1000) +
        (c.find_closest_timestamp event_time -
          (c.find_closest_timestamp event_time - before * R / 1000)) =
        c.find_closest_timestamp event_time := by omega
    have hjlt : c.find_closest_timestamp event_time -
        (c.find_closest_timestamp event_time - before * R / 1000) <
        min (c.find_closest_timestamp event_time + (after * R / 1000 + 1))
          c.timestamps.length -
          (c.find_closest_timestamp event_time - before * R / 1000) := by
      rw [hlen]
      omega
    rw [hepts, List.getD_eq_getElem?_getD, List.getElem?_map,
      List.getElem?_take_of_lt hjlt, List.getElem?_drop, hidx,
      List.getElem?_eq_getElem (by omega : c.find_closest_timestamp event_time <
        c.timestamps.length)]
    simp [List.getD_eq_getElem?_getD,
      List.getElem?_eq_getElem (by omega : c.find_closest_timestamp event_time <
        c.timestamps.length)]

/-- Witness for C2: the container `c2demo` (2 samples at 1 Hz, timestamps
`[0, 1]`), event time 1, window 0 ms before / 0 ms after. -/
theorem add_event_epoch_spec_witness :
    (c2demo.find_closest_timestamp 1 < 2 ∧
      ∀ i, i < 2 →
        |c2demo.timestamps.getD (c2demo.find_closest_timestamp 1) 0 - 1| ≤
          |c2demo.timestamps.getD i 0 - 1|) ∧
    ((c2demo.add_event 1 0 0).2.timestamps.length =
      min (c2demo.find_closest_timestamp 1 + (0 * 1 / 1000 + 1)) 2 -
        (c2demo.find_closest_timestamp 1 - 0 * 1 / 1000)) ∧
    ((c2demo.find_closest_timestamp 1 -
        (c2demo.find_closest_timestamp 1 - 0 * 1 / 1000)) <
      (c2demo.add_event 1 0 0).2.timestamps.length ∧
     (c2demo.add_event 1 0 0).2.timestamps.getD
        (c2demo.find_closest_timestamp 1 -
          (c2demo.find_closest_timestamp 1 - 0 * 1 / 1000)) 0 = 0) :=
  add_event_epoch_spec c2demo 0 2 1 1 0 0 (by decide) (by decide) rfl
    (by simp [c2demo, List.range_succ])

/-- Parsing is a left inverse of serialization on one template. -/
theorem parseTemplate_inverse (t : Template) :
    TemplateDatabase.parseTemplate (Json.arr (t.map Json.num)) = some t := by
  induction t with
  | nil => rfl
  | cons q rest ih =>
    have ih2 : optTraverse
        (fun j => match j with | .num q => some q | _ => none)
        (rest.map Json.num) = some rest := ih
    show optTraverse (fun j => match j with | .num q => some q | _ => none)
        (Json.num q :: rest.map Json.num) = some (q :: rest)
    rw [optTraverse, ih2]

/-- Parsing is a left inverse of serialization on one identity's list. -/
theorem parseTemplates_inverse (ts : List Template) :
    TemplateDatabase.parseTemplates
      (Json.arr (ts.map (fun t => Json.arr (t.map Json.num)))) = some ts := by
  induction ts with
  | nil => rfl
  | cons t rest ih =>
    have ih2 : optTraverse TemplateDatabase.parseTemplate
        (rest.map (fun t => Json.arr (t.map Json.num))) = some rest := ih
    show optTraverse TemplateDatabase.parseTemplate
        (Json.arr (t.map Json.num) ::
          rest.map (fun t => Json.arr (t.map Json.num))) = some (t :: rest)
    rw [optTraverse, parseTemplate_inverse, ih2]

/-- Parsing is a left inverse of serialization on the whole entry list. -/
theorem entries_parse_inverse (l : List (String × List Template)) :
    optTraverse
      (fun p => (TemplateDatabase.parseTemplates p.2).map (fun ts => (p.1, ts)))
      (l.map (fun p =>
        (p.1, Json.arr (p.2.map (fun t => Json.arr (t.map Json.num)))))) =
      some l := by
  induction l with
  | nil => rfl
  | cons p rest ih =>
    rw [List.map_cons, optTraverse, ih]
    simp [parseTemplates_inverse]

/-- `add_template` on a database whose LAST entry is `id` (and whose other
keys differ from `id`) appends to that entry's list. -/
theorem add_template_append (pre : List (String × List Template)) (id : String)
    (l : List Template) (t : Template) (hpre : id ∉ pre.map Prod.fst) :
    TemplateDatabase.add_template ⟨pre ++ [(id, l)]⟩ id t =
      ⟨pre ++ [(id, l ++ [t])]⟩ := by
  unfold TemplateDatabase.add_template
  have hcont : ((pre ++ [(id, l)]).map Prod.fst).contains id = true := by simp
  rw [if_pos hcont]
  congr 1
  rw [List.map_append]
  have hpreeq : pre.map (fun p => if p.1 = id then (p.1, p.2 ++ [t]) else p) = pre := by
    have hcongr : ∀ p ∈ pre, (if p.1 = id then (p.1, p.2 ++ [t]) else p) = p := by
      intro p hp
      rw [if_neg]
      intro hcontra
      exact hpre (hcontra ▸ List.mem_map_of_mem Prod.fst hp)
    rw [List.map_congr_left hcongr]
    exact List.map_id _
  rw [hpreeq]
  simp

/-- Replaying a list of templates through `add_template` onto a database
whose last entry is `id` appends them all to that entry. -/
theorem addTemplates_append (pre : List (String × List Template)) (id : String)
    (hpre : id ∉ pre.map Prod.fst) :
    ∀ (ts : List Template) (l : List Template),
      TemplateDatabase.addTemplates ⟨pre ++ [(id, l)]⟩ id ts =
        ⟨pre ++ [(id, l ++ ts)]⟩ := by
  intro ts
  induction ts with
  | nil => intro l; simp [TemplateDatabase.addTemplates]
  | cons t ts' ih =>
    intro l
    have hstep : TemplateDatabase.addTemplates ⟨pre ++ [(id, l)]⟩ id (t :: ts') =
        TemplateDatabase.addTemplates
          (TemplateDatabase.add_template ⟨pre ++ [(id, l)]⟩ id t) id ts' := rfl
    rw [hstep, add_template_append pre id l t hpre, ih (l ++ [t])]
    simp

/-- Replaying a non-empty list of templates for a FRESH identity appends a
new entry holding exactly that list. -/
theorem addTemplates_new (dbl : List (String × List Template)) (id : String)
    (ts : List Template) (hid : id ∉ dbl.map Prod.fst) (hts : ts ≠ []) :
    TemplateDatabase.addTemplates ⟨dbl⟩ id ts = ⟨dbl ++ [(id, ts)]⟩ := by
  cases ts with
  | nil => exact absurd rfl hts
  | cons t ts' =>
    have hstep : TemplateDatabase.addTemplates ⟨dbl⟩ id (t :: ts') =
        TemplateDatabase.addTemplates
          (TemplateDatabase.add_template ⟨dbl⟩ id t) id ts' := rfl
    have h1 : TemplateDatabase.add_template ⟨dbl⟩ id t = ⟨dbl ++ [(id, [t])]⟩ := by
      unfold TemplateDatabase.add_template
      rw [if_neg (by simpa using hid)]
    rw [hstep, h1, addTemplates_append dbl id hid ts' [t]]
    rfl

/-- The deserialization fold rebuilds exactly the serialized entry list,
provided keys are distinct and no template list is empty. -/
theorem fold_addTemplates (entries : List (String × List Template)) :
    ∀ acc : List (String × List Template),
      (((acc ++ entries).map Prod.fst)).Nodup →
      (∀ p ∈ entries, p.2 ≠ []) →
      entries.foldl (fun d pk => TemplateDatabase.addTemplates d pk.1 pk.2)
          ⟨acc⟩ = ⟨acc ++ entries⟩ := by
  induction entries with
  | nil => intro acc _ _; simp
  | cons pk rest ih =>
    intro acc hnd hmt
    have hdisj : ∀ k ∈ acc.map Prod.fst, k ∉ (pk :: rest).map Prod.fst := by
      rw [List.map_append] at hnd
      exact fun k hk => List.disjoint_of_nodup_append hnd hk
    have hid : pk.1 ∉ acc.map Prod.fst := by
      intro hcontra
      exact hdisj pk.1 hcontra (by simp)
    rw [List.foldl_cons, addTemplates_new acc pk.1 pk.2 hid (hmt pk (by simp))]
    have hnd2 : (((acc ++ [(pk.1, pk.2)]) ++ rest).map Prod.fst).Nodup := by
      simpa using hnd
    have := ih (acc ++ [(pk.1, pk.2)]) hnd2
      (fun p hp => hmt p (List.mem_cons_of_mem _ hp))
    rw [this]
    simp

/-- With distinct keys, `lookup` finds exactly the entry a pair belongs to. -/
theorem lookup_of_mem_nodup :
    ∀ (l : List (String × List Template)), (l.map Prod.fst).Nodup →
      ∀ k v, (k, v) ∈ l → l.lookup k = some v := by
  intro l
  induction l with
  | nil => intro _ k v h; simp at h
  | cons p rest ih =>
    intro hnd k v hmem
    rcases List.mem_cons.mp hmem with heq | hmem2
    · rw [← heq]
      simp [List.lookup]
    · by_cases hk : k = p.1
      · exfalso
        have : p.1 ∈ rest.map Prod.fst :=
          hk ▸ List.mem_map_of_mem Prod.fst hmem2
        exact (List.nodup_cons.mp (by simpa using hnd)).1 this
      · have hbeq : (k == p.1) = false := by simpa using hk
        simp only [List.lookup, hbeq]
        exact ih (List.nodup_cons.mp (by simpa using hnd)).2 k v hmem2

/-- `TemplateDatabase.__eq__` is reflexive on databases with distinct keys. -/
theorem eqb_refl_of_nodup (db : TemplateDatabase)
    (hnd : (db.internal_data.map Prod.fst).Nodup) : db.eqb db = true := by
  unfold TemplateDatabase.eqb
  rw [Bool.and_eq_true]
  refine ⟨by simp, ?_⟩
  rw [List.all_eq_true]
  intro p hp
  rw [lookup_of_mem_nodup db.internal_data hnd p.1 p.2 (by simpa using hp)]
  simp

/-- C8: for every database with distinct identities, at least one identity,
and no empty template list, deserializing the serialized JSON form yields a
database structurally identical to the original — in particular equal under
the source's `__eq__` — with identities and template lists in insertion
order and every rational recovered exactly. -/
theorem database_json_round_trip (db : TemplateDatabase)
    (hnd : (db.internal_data.map Prod.fst).Nodup)
    (_hne : db.internal_data ≠ [])
    (hmt : ∀ p ∈ db.internal_data, p.2 ≠ []) :
    TemplateDatabase.construct_from_json db.to_json = some db ∧
    db.eqb db = true := by
  refine ⟨?_, eqb_refl_of_nodup db hnd⟩
  have hstep : TemplateDatabase.construct_from_json db.to_json =
      (optTraverse (fun p => (TemplateDatabase.parseTemplates p.2).map
          (fun ts => (p.1, ts)))
        (db.internal_data.map (fun p =>
          (p.1, Json.arr (p.2.map (fun t => Json.arr (t.map Json.num))))))).map
        (fun es => es.foldl
          (fun d pk => TemplateDatabase.addTemplates d pk.1 pk.2) ⟨[]⟩) := rfl
  rw [hstep, entries_parse_inverse db.internal_data, Option.map_some']
  have := fold_addTemplates db.internal_data [] (by simpa using hnd) hmt
  rw [this]
  simp

/-- Witness for C8 on the one-identity demo database. -/
theorem database_json_round_trip_witness :
    TemplateDatabase.construct_from_json demoDb.to_json = some demoDb ∧
    demoDb.eqb demoDb = true :=
  database_json_round_trip demoDb (by decide) (by decide) (by decide)

end Neuropack
